import Mathlib

/-!
# Verification of the wayback orchestration-and-scoring core

Shallow embedding of the route-planning backend:

* `src/backend/utils/models.py` — the normalized data model,
* `src/backend/adapters/orchestrator.py` — the gathering orchestrator,
* `src/backend/agents/{speed,cost,eco,safety}_agent.py` — the four scoring agents,
* `src/backend/main.py` — fault-isolated agent assembly (`safe_agent_score`),
* `src/mcp_server/providers/safety_adapter.py` — risk score and night-walk minutes.

Python floats are modelled as `ℚ` (the code only performs field arithmetic,
`min`/`max` and comparisons), Python ints as `ℤ`.  Python truthiness of
optional numbers (`None` and `0` are falsy) is modelled explicitly.
Concurrency is flattened: `asyncio.gather(..., return_exceptions=True)`
delivers its results in argument (registration) order, so the orchestrator is
a function of the per-adapter outcomes, in that order.
-/

/-- `src/backend/utils/models.py` — `NormalizedOption`.  The free-form
`metadata` dict is not modelled; no code under verification reads it. -/
structure NormalizedOption where
  id : String
  mode : String
  provider : String
  product : Option String := none
  line : Option String := none
  eta_pickup_min : Option ℤ := none
  wait_min : Option ℤ := none
  duration_min : ℤ
  walk_min : Option ℤ := some 0
  cost_usd : ℚ
  co2_g : Option ℤ := some 0
  deeplink : Option String := none
  deriving DecidableEq, Repr

/-- Python `a or d` on an optional int: `None` and `0` are falsy. -/
def pyOrInt (a : Option ℤ) (d : ℤ) : ℤ :=
  match a with
  | some v => if v = 0 then d else v
  | none => d

/-- Python `a or d` on a float. -/
def pyOrRat (a : ℚ) (d : ℚ) : ℚ :=
  if a = 0 then d else a

/-- `NormalizedOption.total_time_min`:
`(self.eta_pickup_min or self.wait_min or 0) + self.duration_min + (self.walk_min or 0)`. -/
def NormalizedOption.total_time_min (o : NormalizedOption) : ℤ :=
  pyOrInt o.eta_pickup_min (pyOrInt o.wait_min 0) + o.duration_min + pyOrInt o.walk_min 0

/-- `NormalizedOption.effective_cost_usd`: `self.cost_usd or 0.0`. -/
def NormalizedOption.effective_cost_usd (o : NormalizedOption) : ℚ :=
  pyOrRat o.cost_usd 0

/-- `src/backend/utils/models.py` — `AgentRecommendation`. -/
structure AgentRecommendation where
  option_id : String
  score : ℚ
  why : String
  deriving DecidableEq, Repr

/-- Outcome of one adapter coroutine as seen by the orchestrator after
`asyncio.gather(..., return_exceptions=True)`: a captured exception, `None`
(what `get_lime_options` returns when there is no quote), a single
`NormalizedOption`, or a list of them. -/
inductive AdapterResult where
  | exc (msg : String)
  | nothing
  | single (opt : NormalizedOption)
  | options (opts : List NormalizedOption)
  deriving DecidableEq, Repr

/-- The flattening loop of `gather_all_options`
(`src/backend/adapters/orchestrator.py`, lines 35-45): skip exceptions,
skip falsy results (`None`, empty list), extend with lists, append single
options. -/
def collect_options (results : List AdapterResult) : List NormalizedOption :=
  results.foldl
    (fun acc r =>
      match r with
      | .exc _ => acc
      | .nothing => acc
      | .single o => acc ++ [o]
      | .options l => if l.isEmpty then acc else acc ++ l)
    []

/-- `gather_all_options` (`src/backend/adapters/orchestrator.py`).
`baseline_retry` is what the re-invoked baseline adapter would yield.  The
`Bool` component records whether the empty-result fallback branch ran. -/
def gather_all_options (results : List AdapterResult)
    (baseline_retry : List NormalizedOption) : List NormalizedOption × Bool :=
  let all_options := collect_options results
  if all_options.isEmpty then
    (if baseline_retry.isEmpty then all_options else all_options ++ baseline_retry, true)
  else
    (all_options, false)

/-- C1: a raising adapter never cancels or removes the other adapters'
results: with one exception, one empty result and one two-option result, in
any registration order, `gather_all_options` returns exactly those two
options (and, being a total function of the outcomes, it does not raise). -/
theorem gather_error_isolation (e : String) (a b : NormalizedOption)
    (r1 r2 r3 : AdapterResult) (baseline : List NormalizedOption)
    (h : (r1 = .exc e ∧ r2 = .options [] ∧ r3 = .options [a, b]) ∨
         (r1 = .exc e ∧ r2 = .options [a, b] ∧ r3 = .options []) ∨
         (r1 = .options [] ∧ r2 = .exc e ∧ r3 = .options [a, b]) ∨
         (r1 = .options [] ∧ r2 = .options [a, b] ∧ r3 = .exc e) ∨
         (r1 = .options [a, b] ∧ r2 = .exc e ∧ r3 = .options []) ∨
         (r1 = .options [a, b] ∧ r2 = .options [] ∧ r3 = .exc e)) :
    (gather_all_options [r1, r2, r3] baseline).1 = [a, b] := by
  rcases h with ⟨h1, h2, h3⟩ | ⟨h1, h2, h3⟩ | ⟨h1, h2, h3⟩ | ⟨h1, h2, h3⟩ |
    ⟨h1, h2, h3⟩ | ⟨h1, h2, h3⟩ <;> subst h1 <;> subst h2 <;> subst h3 <;> rfl

def sampleA : NormalizedOption :=
  { id := "a", mode := "transit", provider := "muni", duration_min := 20, cost_usd := 3 }

def sampleB : NormalizedOption :=
  { id := "b", mode := "transit", provider := "muni", duration_min := 30, cost_usd := 2 }

theorem gather_error_isolation_witness :
    (gather_all_options [.exc "boom", .options [], .options [sampleA, sampleB]] []).1 =
      [sampleA, sampleB] :=
  gather_error_isolation "boom" sampleA sampleB _ _ _ _ (Or.inl ⟨rfl, rfl, rfl⟩)

/-- C2: the fallback invariant of `gather_all_options`: when the concatenated
successes are empty the baseline retry's yield is returned (fallback branch
taken), otherwise the concatenation itself is returned (fallback branch not
taken); hence the overall result is empty exactly when both the
concatenation and the baseline retry are empty. -/
theorem gather_fallback_invariant (results : List AdapterResult)
    (baseline : List NormalizedOption) :
    (gather_all_options results baseline =
      if collect_options results = [] then (baseline, true)
      else (collect_options results, false)) ∧
    ((gather_all_options results baseline).1 = [] ↔
      collect_options results = [] ∧ baseline = []) := by
  unfold gather_all_options
  by_cases h : collect_options results = [] <;>
    by_cases hb : baseline = [] <;>
      simp_all [List.isEmpty_iff]

/-- Python `min(xs, key=f)` starting from a first element: the running best is
replaced only on a strictly smaller key, so the first minimizer wins. -/
def pyMinBy {α β : Type} [LinearOrder β] (f : α → β) (x : α) : List α → α
  | [] => x
  | y :: ys => if f y < f x then pyMinBy f y ys else pyMinBy f x ys

/-- Python `max(xs, key=f)` starting from a first element: the running best is
replaced only on a strictly larger key, so the first maximizer wins. -/
def pyMaxBy {α β : Type} [LinearOrder β] (f : α → β) (x : α) : List α → α
  | [] => x
  | y :: ys => if f y > f x then pyMaxBy f y ys else pyMaxBy f x ys

/-- Python `min(...)` over a non-empty generator of values. -/
def foldlMin {β : Type} [LinearOrder β] (x : β) (xs : List β) : β :=
  xs.foldl min x

/-- Python `max(...)` over a non-empty generator of values. -/
def foldlMax {β : Type} [LinearOrder β] (x : β) (xs : List β) : β :=
  xs.foldl max x

theorem pyMinBy_mem {α β : Type} [LinearOrder β] (f : α → β) (x : α)
    (xs : List α) : pyMinBy f x xs ∈ x :: xs := by
  induction xs generalizing x with
  | nil => simp [pyMinBy]
  | cons y ys ih =>
    rw [pyMinBy]
    by_cases h : f y < f x
    · rw [if_pos h]
      rcases List.mem_cons.mp (ih y) with h' | h'
      · rw [h']
        exact List.mem_cons_of_mem _ (List.mem_cons_self _ _)
      · exact List.mem_cons_of_mem _ (List.mem_cons_of_mem _ h')
    · rw [if_neg h]
      rcases List.mem_cons.mp (ih x) with h' | h'
      · rw [h']
        exact List.mem_cons_self _ _
      · exact List.mem_cons_of_mem _ (List.mem_cons_of_mem _ h')

theorem pyMinBy_le {α β : Type} [LinearOrder β] (f : α → β) (x : α)
    (xs : List α) : ∀ a ∈ x :: xs, f (pyMinBy f x xs) ≤ f a := by
  induction xs generalizing x with
  | nil => simp [pyMinBy]
  | cons y ys ih =>
    intro a ha
    rw [pyMinBy]
    rcases List.mem_cons.mp ha with rfl | ha'
    · by_cases h : f y < f a
      · rw [if_pos h]
        exact le_trans (ih y y (List.mem_cons_self _ _)) (le_of_lt h)
      · rw [if_neg h]
        exact ih a a (List.mem_cons_self _ _)
    · by_cases h : f y < f x
      · rw [if_pos h]
        exact ih y a ha'
      · rw [if_neg h]
        rcases List.mem_cons.mp ha' with rfl | ha''
        · exact le_trans (ih x x (List.mem_cons_self _ _)) (le_of_not_lt h)
        · exact ih x a (List.mem_cons_of_mem _ ha'')

theorem pyMaxBy_mem {α β : Type} [LinearOrder β] (f : α → β) (x : α)
    (xs : List α) : pyMaxBy f x xs ∈ x :: xs := by
  induction xs generalizing x with
  | nil => simp [pyMaxBy]
  | cons y ys ih =>
    rw [pyMaxBy]
    by_cases h : f y > f x
    · rw [if_pos h]
      rcases List.mem_cons.mp (ih y) with h' | h'
      · rw [h']
        exact List.mem_cons_of_mem _ (List.mem_cons_self _ _)
      · exact List.mem_cons_of_mem _ (List.mem_cons_of_mem _ h')
    · rw [if_neg h]
      rcases List.mem_cons.mp (ih x) with h' | h'
      · rw [h']
        exact List.mem_cons_self _ _
      · exact List.mem_cons_of_mem _ (List.mem_cons_of_mem _ h')

theorem pyMaxBy_ge {α β : Type} [LinearOrder β] (f : α → β) (x : α)
    (xs : List α) : ∀ a ∈ x :: xs, f a ≤ f (pyMaxBy f x xs) := by
  induction xs generalizing x with
  | nil => simp [pyMaxBy]
  | cons y ys ih =>
    intro a ha
    rw [pyMaxBy]
    rcases List.mem_cons.mp ha with rfl | ha'
    · by_cases h : f y > f a
      · rw [if_pos h]
        exact le_trans (le_of_lt h) (ih y y (List.mem_cons_self _ _))
      · rw [if_neg h]
        exact ih a a (List.mem_cons_self _ _)
    · by_cases h : f y > f x
      · rw [if_pos h]
        exact ih y a ha'
      · rw [if_neg h]
        rcases List.mem_cons.mp ha' with rfl | ha''
        · exact le_trans (le_of_not_lt h) (ih x x (List.mem_cons_self _ _))
        · exact ih x a (List.mem_cons_of_mem _ ha'')

theorem foldlMin_le {β : Type} [LinearOrder β] (x : β) (xs : List β) :
    foldlMin x xs ≤ x ∧ ∀ a ∈ xs, foldlMin x xs ≤ a := by
  induction xs generalizing x with
  | nil => simp [foldlMin]
  | cons y ys ih =>
    have h := ih (min x y)
    have hx : foldlMin x (y :: ys) = foldlMin (min x y) ys := rfl
    refine ⟨?_, ?_⟩
    · rw [hx]
      exact le_trans h.1 (min_le_left _ _)
    · intro a ha
      rw [hx]
      rcases List.mem_cons.mp ha with rfl | ha'
      · exact le_trans h.1 (min_le_right _ _)
      · exact h.2 a ha'

theorem foldlMin_attained {β : Type} [LinearOrder β] (x : β) (xs : List β) :
    foldlMin x xs = x ∨ foldlMin x xs ∈ xs := by
  induction xs generalizing x with
  | nil => simp [foldlMin]
  | cons y ys ih =>
    have hx : foldlMin x (y :: ys) = foldlMin (min x y) ys := rfl
    rcases ih (min x y) with h | h
    · rcases min_choice x y with hm | hm
      · left
        rw [hx, h, hm]
      · right
        rw [hx, h, hm]
        exact List.mem_cons_self _ _
    · right
      rw [hx]
      exact List.mem_cons_of_mem _ h

theorem foldlMax_ge {β : Type} [LinearOrder β] (x : β) (xs : List β) :
    x ≤ foldlMax x xs ∧ ∀ a ∈ xs, a ≤ foldlMax x xs := by
  induction xs generalizing x with
  | nil => simp [foldlMax]
  | cons y ys ih =>
    have h := ih (max x y)
    have hx : foldlMax x (y :: ys) = foldlMax (max x y) ys := rfl
    refine ⟨?_, ?_⟩
    · rw [hx]
      exact le_trans (le_max_left _ _) h.1
    · intro a ha
      rw [hx]
      rcases List.mem_cons.mp ha with rfl | ha'
      · exact le_trans (le_max_right _ _) h.1
      · exact h.2 a ha'

/-- The recommendation each agent returns for an empty option list. -/
def no_options_rec : AgentRecommendation :=
  { option_id := "", score := 0, why := "No options available" }

/-- Round to the nearest integer, halves to even (the rounding used by
Python's fixed-point float formatting). -/
def roundHalfEven (x : ℚ) : ℤ :=
  let f := ⌊x⌋
  let r := x - (f : ℚ)
  if r < 1/2 then f
  else if 1/2 < r then f + 1
  else if f % 2 = 0 then f else f + 1

def twoDigits (n : ℕ) : String :=
  if n < 10 then "0" ++ toString n else toString n

/-- Python `f"{v:.2f}"` on an exact rational value (the binary-float rounding
noise of CPython is not modelled; only `why` strings depend on this). -/
def formatUsd (q : ℚ) : String :=
  let cents := roundHalfEven (q * 100)
  (if cents < 0 then "-" else "") ++ toString (cents.natAbs / 100) ++ "." ++
    twoDigits (cents.natAbs % 100)

/-- `SpeedAgent.score` (`src/backend/agents/speed_agent.py`). -/
def speed_agent_score (options : List NormalizedOption) : AgentRecommendation :=
  match options with
  | [] => no_options_rec
  | o :: os =>
    let fastest := pyMinBy NormalizedOption.total_time_min o os
    let fastest_time := fastest.total_time_min
    let max_time := foldlMax o.total_time_min (os.map NormalizedOption.total_time_min)
    let min_time := fastest_time
    let score : ℚ :=
      if max_time = min_time then 1
      else 1 - (((fastest_time : ℚ) - (min_time : ℚ)) / ((max_time : ℚ) - (min_time : ℚ))) * (9/10)
    { option_id := fastest.id, score := max (1/10) score,
      why := s!"Fastest door-to-door at {fastest_time} minutes" }

/-- The tail of `CostAgent.score` once the viable candidate list is known to
be non-empty (`c :: cs` is `viable_options`). -/
def costPick (time_cap : ℚ) (c : NormalizedOption) (cs : List NormalizedOption) :
    AgentRecommendation :=
  let cheapest := pyMinBy NormalizedOption.effective_cost_usd c cs
  let cheapest_cost := cheapest.effective_cost_usd
  let max_cost := foldlMax c.effective_cost_usd (cs.map NormalizedOption.effective_cost_usd)
  let min_cost := cheapest_cost
  let score : ℚ :=
    if max_cost = min_cost then 1
    else 1 - ((cheapest_cost - min_cost) / (max_cost - min_cost)) * (9/10)
  let score' := if (cheapest.total_time_min : ℚ) > time_cap then score * (1/2) else score
  { option_id := cheapest.id, score := max (1/10) score',
    why := "Lowest fare at $" ++ formatUsd cheapest_cost ++ " with reasonable time" }

/-- `CostAgent.score` (`src/backend/agents/cost_agent.py`). -/
def cost_agent_score (options : List NormalizedOption) : AgentRecommendation :=
  match options with
  | [] => no_options_rec
  | o :: os =>
    let fastest_time := foldlMin o.total_time_min (os.map NormalizedOption.total_time_min)
    let time_cap : ℚ := (fastest_time : ℚ) * 2
    -- `if not viable_options: viable_options = options`: an empty filter
    -- result falls back to the full (non-empty) option list
    match (o :: os).filter (fun opt => decide ((opt.total_time_min : ℚ) ≤ time_cap)) with
    | [] => costPick time_cap o os
    | c :: cs => costPick time_cap c cs

/-- `EcoAgent._get_mode_weight`: the mode-weight dictionary with default 0.5. -/
def eco_mode_weight (mode : String) : ℚ :=
  if mode = "walk" then 1
  else if mode = "bike" then 19/20
  else if mode = "transit" then 9/10
  else if mode = "micromobility" then 17/20
  else if mode = "ridehail" then 1/2
  else if mode = "drive" then 3/10
  else 1/2

/-- `max(0.0, min(1.0, x))`, the clamp used by the eco and safety agents. -/
def clamp01 (x : ℚ) : ℚ :=
  max 0 (min 1 x)

/-- The per-option score of the eco agent's loop body. -/
def eco_option_score (opt : NormalizedOption) : ℚ :=
  clamp01 (eco_mode_weight opt.mode - (1/10000) * (pyOrInt opt.co2_g 0 : ℚ))

/-- The `mode_names` dictionary of `EcoAgent.score` with default the raw mode. -/
def eco_mode_name (mode : String) : String :=
  if mode = "walk" then "walking"
  else if mode = "bike" then "biking"
  else if mode = "transit" then "public transit"
  else if mode = "micromobility" then "scooter"
  else if mode = "ridehail" then "ridehail"
  else if mode = "drive" then "driving"
  else mode

/-- `EcoAgent.score` (`src/backend/agents/eco_agent.py`). -/
def eco_agent_score (options : List NormalizedOption) : AgentRecommendation :=
  match options with
  | [] => no_options_rec
  | o :: os =>
    let scored0 := (o, eco_option_score o)
    let scoredRest := os.map (fun opt => (opt, eco_option_score opt))
    let best := pyMaxBy Prod.snd scored0 scoredRest
    let co2_text :=
      match best.1.co2_g with
      | some c => if c ≠ 0 ∧ c < 500 then s!" with low emissions ({c}g CO₂)" else ""
      | none => ""
    let mn := eco_mode_name best.1.mode
    { option_id := best.1.id, score := best.2,
      why := s!"Eco-friendly {mn} option{co2_text}" }

/-- `BaseAgent._normalize_score`. -/
def normalize_score (value min_val max_val : ℚ) : ℚ :=
  if max_val = min_val then 1
  else max 0 (min 1 ((value - min_val) / (max_val - min_val)))

/-- The per-option score of `SafetyAgent.score`'s loop body.  Python
truthiness: `opt.walk_min and opt.walk_min > 0` and
`night_walk_minutes and night_walk_minutes > 0` are false for `None` and `0`;
`risk_penalty or 0.0` falls back on `None` and `0.0`. -/
def safety_option_score (opt : NormalizedOption) (risk_penalty : Option ℚ)
    (night_walk_minutes : Option ℤ) : ℚ :=
  let time_score := 1 - normalize_score (opt.total_time_min : ℚ) 0 120
  let walk_penalty : ℚ :=
    match opt.walk_min with
    | some w =>
      if w ≠ 0 ∧ 0 < w then
        match night_walk_minutes with
        | some n =>
          if n ≠ 0 ∧ 0 < n then min (2/5) ((w : ℚ) * (1/10))
          else min (1/5) ((w : ℚ) * (1/20))
        | none => min (1/5) ((w : ℚ) * (1/20))
      else 0
    | none => 0
  let risk : ℚ := match risk_penalty with
    | some r => pyOrRat r 0
    | none => 0
  clamp01 (time_score - walk_penalty - risk * (1/2))

/-- `SafetyAgent.score` (`src/backend/agents/safety_agent.py`).  The unused
`time_of_day` argument of the Python method is omitted. -/
def safety_agent_score (options : List NormalizedOption) (risk_penalty : Option ℚ)
    (night_walk_minutes : Option ℤ) : AgentRecommendation :=
  match options with
  | [] => no_options_rec
  | o :: os =>
    let scored0 := (o, safety_option_score o risk_penalty night_walk_minutes)
    let scoredRest := os.map (fun opt => (opt, safety_option_score opt risk_penalty night_walk_minutes))
    let best := pyMaxBy Prod.snd scored0 scoredRest
    let rationale :=
      match best.1.walk_min with
      | some w =>
        if w ≠ 0 ∧ 5 < w then s!"Minimal walking ({w} min) reduces exposure"
        else if best.1.mode = "ridehail" then "Door-to-door service avoids walking at night"
        else "Balanced route with safety considerations"
      | none =>
        if best.1.mode = "ridehail" then "Door-to-door service avoids walking at night"
        else "Balanced route with safety considerations"
    { option_id := best.1.id, score := best.2, why := rationale }

/-- The `agents` dictionary of `PlanResponse`: it has exactly the four keys
`speed`, `cost`, `eco`, `safety` (`src/backend/main.py`, `plan`). -/
structure AgentsMap where
  speed : AgentRecommendation
  cost : AgentRecommendation
  eco : AgentRecommendation
  safety : AgentRecommendation
  deriving DecidableEq, Repr

/-- `safe_agent_score` (`src/backend/main.py`): the argument is the outcome of
`agent.score(...)`, either a recommendation or a raised exception. -/
def safe_agent_score (options : List NormalizedOption)
    (result : Except String AgentRecommendation) : AgentRecommendation :=
  match result with
  | .ok rec => rec
  | .error _ =>
    match options with
    | o :: _ =>
      { option_id := o.id, score := 1/2, why := "Agent unavailable, using first option" }
    | [] => { option_id := "", score := 0, why := "Agent unavailable" }

/-- The assembly of the four agent entries in `plan` (`src/backend/main.py`),
each invocation individually fault-isolated through `safe_agent_score`. -/
def assemble_agents (options : List NormalizedOption)
    (speed_result cost_result eco_result safety_result : Except String AgentRecommendation) :
    AgentsMap :=
  { speed := safe_agent_score options speed_result,
    cost := safe_agent_score options cost_result,
    eco := safe_agent_score options eco_result,
    safety := safe_agent_score options safety_result }

theorem clamp01_nonneg (x : ℚ) : 0 ≤ clamp01 x :=
  le_max_left 0 _

theorem clamp01_le_one (x : ℚ) : clamp01 x ≤ 1 :=
  max_le (by norm_num) (min_le_left 1 x)

theorem speed_agent_score_val (o : NormalizedOption) (os : List NormalizedOption) :
    (speed_agent_score (o :: os)).score = 1 := by
  simp only [speed_agent_score]
  split_ifs with h <;> norm_num

theorem costPick_option_id (time_cap : ℚ) (c : NormalizedOption)
    (cs : List NormalizedOption) :
    (costPick time_cap c cs).option_id =
      (pyMinBy NormalizedOption.effective_cost_usd c cs).id := rfl

theorem costPick_score (time_cap : ℚ) (c : NormalizedOption)
    (cs : List NormalizedOption) :
    (costPick time_cap c cs).score =
      if ((pyMinBy NormalizedOption.effective_cost_usd c cs).total_time_min : ℚ) > time_cap
      then 1/2 else 1 := by
  simp only [costPick]
  split_ifs with h1 h2 h2 <;> norm_num

theorem cost_agent_score_cases (o : NormalizedOption) (os : List NormalizedOption) :
    cost_agent_score (o :: os) =
      (let fastest_time := foldlMin o.total_time_min (os.map NormalizedOption.total_time_min)
       let time_cap : ℚ := (fastest_time : ℚ) * 2
       match (o :: os).filter (fun opt => decide ((opt.total_time_min : ℚ) ≤ time_cap)) with
       | [] => costPick time_cap o os
       | c :: cs => costPick time_cap c cs) := rfl

theorem eco_agent_best_mem (o : NormalizedOption) (os : List NormalizedOption) :
    ∃ a ∈ o :: os,
      (eco_agent_score (o :: os)).option_id = a.id ∧
      (eco_agent_score (o :: os)).score = eco_option_score a := by
  have hmem := pyMaxBy_mem Prod.snd (o, eco_option_score o)
    (os.map fun opt => (opt, eco_option_score opt))
  rw [show ((o, eco_option_score o) :: os.map fun opt => (opt, eco_option_score opt)) =
      (o :: os).map fun opt => (opt, eco_option_score opt) from rfl] at hmem
  rcases List.mem_map.mp hmem with ⟨a, ha, hba⟩
  refine ⟨a, ha, ?_, ?_⟩
  · simp only [eco_agent_score]
    rw [← hba]
  · simp only [eco_agent_score]
    rw [← hba]

theorem safety_agent_best_mem (o : NormalizedOption) (os : List NormalizedOption)
    (risk : Option ℚ) (nwm : Option ℤ) :
    ∃ a ∈ o :: os,
      (safety_agent_score (o :: os) risk nwm).option_id = a.id ∧
      (safety_agent_score (o :: os) risk nwm).score = safety_option_score a risk nwm := by
  have hmem := pyMaxBy_mem Prod.snd (o, safety_option_score o risk nwm)
    (os.map fun opt => (opt, safety_option_score opt risk nwm))
  rw [show ((o, safety_option_score o risk nwm) ::
      os.map fun opt => (opt, safety_option_score opt risk nwm)) =
      (o :: os).map fun opt => (opt, safety_option_score opt risk nwm) from rfl] at hmem
  rcases List.mem_map.mp hmem with ⟨a, ha, hba⟩
  refine ⟨a, ha, ?_, ?_⟩
  · simp only [safety_agent_score]
    rw [← hba]
  · simp only [safety_agent_score]
    rw [← hba]

/-- C3: on every non-empty option set, each of the four agents returns a
score in `[0, 1]` and an `option_id` that is the `id` of one of the input
options (the safety agent for every risk/night-walk context). -/
theorem agents_score_unit_interval_and_member (o : NormalizedOption)
    (os : List NormalizedOption) (risk : Option ℚ) (nwm : Option ℤ) :
    (0 ≤ (speed_agent_score (o :: os)).score ∧ (speed_agent_score (o :: os)).score ≤ 1 ∧
      (speed_agent_score (o :: os)).option_id ∈ (o :: os).map NormalizedOption.id) ∧
    (0 ≤ (cost_agent_score (o :: os)).score ∧ (cost_agent_score (o :: os)).score ≤ 1 ∧
      (cost_agent_score (o :: os)).option_id ∈ (o :: os).map NormalizedOption.id) ∧
    (0 ≤ (eco_agent_score (o :: os)).score ∧ (eco_agent_score (o :: os)).score ≤ 1 ∧
      (eco_agent_score (o :: os)).option_id ∈ (o :: os).map NormalizedOption.id) ∧
    (0 ≤ (safety_agent_score (o :: os) risk nwm).score ∧
      (safety_agent_score (o :: os) risk nwm).score ≤ 1 ∧
      (safety_agent_score (o :: os) risk nwm).option_id ∈ (o :: os).map NormalizedOption.id) := by
  refine ⟨⟨?_, ?_, ?_⟩, ⟨?_, ?_, ?_⟩, ⟨?_, ?_, ?_⟩, ⟨?_, ?_, ?_⟩⟩
  · rw [speed_agent_score_val]; norm_num
  · rw [speed_agent_score_val]
  · exact List.mem_map_of_mem _ (pyMinBy_mem NormalizedOption.total_time_min o os)
  · rw [cost_agent_score_cases]
    cases hv : (o :: os).filter
        (fun opt => decide ((opt.total_time_min : ℚ) ≤
          ((foldlMin o.total_time_min (os.map NormalizedOption.total_time_min) : ℤ) : ℚ) * 2)) with
    | nil =>
      simp only [hv, costPick_score]
      split_ifs <;> norm_num
    | cons c cs =>
      simp only [hv, costPick_score]
      split_ifs <;> norm_num
  · rw [cost_agent_score_cases]
    cases hv : (o :: os).filter
        (fun opt => decide ((opt.total_time_min : ℚ) ≤
          ((foldlMin o.total_time_min (os.map NormalizedOption.total_time_min) : ℤ) : ℚ) * 2)) with
    | nil =>
      simp only [hv, costPick_score]
      split_ifs <;> norm_num
    | cons c cs =>
      simp only [hv, costPick_score]
      split_ifs <;> norm_num
  · rw [cost_agent_score_cases]
    cases hv : (o :: os).filter
        (fun opt => decide ((opt.total_time_min : ℚ) ≤
          ((foldlMin o.total_time_min (os.map NormalizedOption.total_time_min) : ℤ) : ℚ) * 2)) with
    | nil =>
      simp only [hv, costPick_option_id]
      exact List.mem_map_of_mem _ (pyMinBy_mem NormalizedOption.effective_cost_usd o os)
    | cons c cs =>
      simp only [hv, costPick_option_id]
      have hsub : pyMinBy NormalizedOption.effective_cost_usd c cs ∈ c :: cs :=
        pyMinBy_mem _ _ _
      have : pyMinBy NormalizedOption.effective_cost_usd c cs ∈ o :: os := by
        have := hv ▸ hsub
        exact List.mem_of_mem_filter this
      exact List.mem_map_of_mem _ this
  · rcases eco_agent_best_mem o os with ⟨a, _, _, hs⟩
    rw [hs]
    exact clamp01_nonneg _
  · rcases eco_agent_best_mem o os with ⟨a, _, _, hs⟩
    rw [hs]
    exact clamp01_le_one _
  · rcases eco_agent_best_mem o os with ⟨a, ha, hid, _⟩
    rw [hid]
    exact List.mem_map_of_mem _ ha
  · rcases safety_agent_best_mem o os risk nwm with ⟨a, _, _, hs⟩
    rw [hs]
    exact clamp01_nonneg _
  · rcases safety_agent_best_mem o os risk nwm with ⟨a, _, _, hs⟩
    rw [hs]
    exact clamp01_le_one _
  · rcases safety_agent_best_mem o os risk nwm with ⟨a, ha, hid, _⟩
    rw [hid]
    exact List.mem_map_of_mem _ ha

/-- C4: agent fault isolation in `plan`: the assembled `agents` value has
exactly the four keys speed/cost/eco/safety; when exactly one agent raises
(in any of the four slots) its entry is the first-option placeholder with
score 0.5 while the other three agents' results are passed through, and the
response is still produced (the assembly is a total function). -/
theorem plan_agent_fault_isolation (o : NormalizedOption) (os : List NormalizedOption)
    (e : String) (r1 r2 r3 : AgentRecommendation) :
    (assemble_agents (o :: os) (.error e) (.ok r1) (.ok r2) (.ok r3) =
      { speed := { option_id := o.id, score := 1/2,
                   why := "Agent unavailable, using first option" },
        cost := r1, eco := r2, safety := r3 }) ∧
    (assemble_agents (o :: os) (.ok r1) (.error e) (.ok r2) (.ok r3) =
      { speed := r1,
        cost := { option_id := o.id, score := 1/2,
                  why := "Agent unavailable, using first option" },
        eco := r2, safety := r3 }) ∧
    (assemble_agents (o :: os) (.ok r1) (.ok r2) (.error e) (.ok r3) =
      { speed := r1, cost := r2,
        eco := { option_id := o.id, score := 1/2,
                 why := "Agent unavailable, using first option" },
        safety := r3 }) ∧
    (assemble_agents (o :: os) (.ok r1) (.ok r2) (.ok r3) (.error e) =
      { speed := r1, cost := r2, eco := r3,
        safety := { option_id := o.id, score := 1/2,
                    why := "Agent unavailable, using first option" } }) :=
  ⟨rfl, rfl, rfl, rfl⟩

/-- The option `w` occurs in the list, attains the minimum of `f`, and every
option placed before it has a strictly larger key (stated from the spec's
words: the first argmin in input order). -/
def IsFirstMinBy {α β : Type} [LinearOrder β] (f : α → β) (w : α) : List α → Prop
  | [] => False
  | a :: l => (a = w ∧ ∀ b ∈ a :: l, f w ≤ f b) ∨ (f w < f a ∧ IsFirstMinBy f w l)

theorem pyMinBy_isFirstMinBy {α β : Type} [LinearOrder β] (f : α → β) (x : α)
    (xs : List α) : IsFirstMinBy f (pyMinBy f x xs) (x :: xs) := by
  induction xs generalizing x with
  | nil =>
    simp [IsFirstMinBy, pyMinBy]
  | cons y ys ih =>
    rw [pyMinBy]
    by_cases h : f y < f x
    · rw [if_pos h]
      rw [IsFirstMinBy]
      right
      refine ⟨lt_of_le_of_lt (pyMinBy_le f y ys y (List.mem_cons_self _ _)) h, ?_⟩
      exact ih y
    · rw [if_neg h]
      have ihx := ih x
      rw [IsFirstMinBy] at ihx
      rw [IsFirstMinBy]
      rcases ihx with ⟨hxw, hall⟩ | ⟨hlt, hrest⟩
      · left
        refine ⟨hxw, ?_⟩
        intro b hb
        rcases List.mem_cons.mp hb with rfl | hb'
        · exact hall b (List.mem_cons_self _ _)
        · rcases List.mem_cons.mp hb' with rfl | hb''
          · rw [← hxw]
            exact le_of_not_lt h
          · exact hall b (List.mem_cons_of_mem _ hb'')
      · right
        refine ⟨hlt, ?_⟩
        rw [IsFirstMinBy]
        right
        exact ⟨lt_of_lt_of_le hlt (le_of_not_lt h), hrest⟩

/-- C5: the speed agent's `option_id` belongs to an option that minimizes
`total_time_min`, and on ties it is the first such option in input order. -/
theorem speed_agent_first_argmin (o : NormalizedOption) (os : List NormalizedOption) :
    ∃ w : NormalizedOption,
      (speed_agent_score (o :: os)).option_id = w.id ∧
      (∀ b ∈ o :: os, w.total_time_min ≤ b.total_time_min) ∧
      IsFirstMinBy NormalizedOption.total_time_min w (o :: os) :=
  ⟨pyMinBy NormalizedOption.total_time_min o os, rfl,
    pyMinBy_le NormalizedOption.total_time_min o os,
    pyMinBy_isFirstMinBy NormalizedOption.total_time_min o os⟩

def exFastest : NormalizedOption :=
  { id := "fastest", mode := "drive", provider := "baseline",
    duration_min := 10, cost_usd := 20 }

def exA : NormalizedOption :=
  { id := "A", mode := "transit", provider := "muni",
    duration_min := 12, cost_usd := 5 }

def exB : NormalizedOption :=
  { id := "B", mode := "walk", provider := "baseline",
    duration_min := 25, cost_usd := 1 }

/-- C6: the cost agent restricts candidates to options within
`time_cap = 2 * min(total_time_min)` (falling back to the full set only when
the filter is empty) and returns a candidate of minimal
`effective_cost_usd`; on the synthetic set fastest=10min/$20, A=12min/$5,
B=25min/$1 the 20-minute cap excludes B and the agent picks A. -/
theorem cost_agent_time_cap_selection (o : NormalizedOption) (os : List NormalizedOption) :
    (let fastest_time := foldlMin o.total_time_min (os.map NormalizedOption.total_time_min)
     let time_cap : ℚ := (fastest_time : ℚ) * 2
     let viable := (o :: os).filter (fun opt => decide ((opt.total_time_min : ℚ) ≤ time_cap))
     let cands := if viable = [] then o :: os else viable
     ∃ w ∈ cands, (cost_agent_score (o :: os)).option_id = w.id ∧
       ∀ x ∈ cands, w.effective_cost_usd ≤ x.effective_cost_usd) ∧
    (cost_agent_score [exFastest, exA, exB]).option_id = "A" := by
  constructor
  · rw [cost_agent_score_cases]
    cases hv : (o :: os).filter
        (fun opt => decide ((opt.total_time_min : ℚ) ≤
          ((foldlMin o.total_time_min (os.map NormalizedOption.total_time_min) : ℤ) : ℚ) * 2)) with
    | nil =>
      simp only [hv, if_pos rfl, costPick_option_id]
      exact ⟨pyMinBy NormalizedOption.effective_cost_usd o os,
        pyMinBy_mem _ _ _, rfl, pyMinBy_le _ _ _⟩
    | cons c cs =>
      simp only [hv, if_neg (List.cons_ne_nil c cs), costPick_option_id]
      exact ⟨pyMinBy NormalizedOption.effective_cost_usd c cs,
        pyMinBy_mem _ _ _, rfl, pyMinBy_le _ _ _⟩
  · norm_num [cost_agent_score_cases, costPick, pyMinBy, foldlMin, foldlMax,
      NormalizedOption.total_time_min, NormalizedOption.effective_cost_usd,
      pyOrInt, pyOrRat, exFastest, exA, exB, List.filter]

/-- C10: with only non-negative `total_time_min` values, the cost agent's
time-cap filter keeps at least one fastest option, so the fall-back-to-full-set
branch is not taken, the winner itself satisfies the cap (so the ×0.5 over-cap
penalty is not applied), and the returned score is exactly 1. -/
theorem cost_agent_nonneg_times_score_one (o : NormalizedOption)
    (os : List NormalizedOption)
    (h : ∀ x ∈ o :: os, 0 ≤ x.total_time_min) :
    (o :: os).filter (fun opt => decide ((opt.total_time_min : ℚ) ≤
        ((foldlMin o.total_time_min (os.map NormalizedOption.total_time_min) : ℤ) : ℚ) * 2)) ≠ [] ∧
    (∃ w ∈ (o :: os).filter (fun opt => decide ((opt.total_time_min : ℚ) ≤
        ((foldlMin o.total_time_min (os.map NormalizedOption.total_time_min) : ℤ) : ℚ) * 2)),
      (cost_agent_score (o :: os)).option_id = w.id ∧
      (w.total_time_min : ℚ) ≤
        ((foldlMin o.total_time_min (os.map NormalizedOption.total_time_min) : ℤ) : ℚ) * 2) ∧
    (cost_agent_score (o :: os)).score = 1 := by
  set ft := foldlMin o.total_time_min (os.map NormalizedOption.total_time_min) with hft
  have hattain : ∃ a ∈ o :: os, a.total_time_min = ft := by
    rcases foldlMin_attained o.total_time_min (os.map NormalizedOption.total_time_min) with
      hm | hm
    · exact ⟨o, List.mem_cons_self _ _, hm.symm⟩
    · rcases List.mem_map.mp hm with ⟨a, ha, ha'⟩
      exact ⟨a, List.mem_cons_of_mem _ ha, ha'⟩
  rcases hattain with ⟨a, ha, hat⟩
  have hftpos : 0 ≤ ft := hat ▸ h a ha
  have hcapa : ((a.total_time_min : ℚ)) ≤ (ft : ℚ) * 2 := by
    rw [hat]
    have : (0 : ℚ) ≤ (ft : ℚ) := by exact_mod_cast hftpos
    linarith
  have hamem : a ∈ (o :: os).filter
      (fun opt => decide ((opt.total_time_min : ℚ) ≤ (ft : ℚ) * 2)) := by
    rw [List.mem_filter]
    exact ⟨ha, by simpa using hcapa⟩
  have hvne : (o :: os).filter
      (fun opt => decide ((opt.total_time_min : ℚ) ≤ (ft : ℚ) * 2)) ≠ [] := by
    intro hnil
    rw [hnil] at hamem
    exact List.not_mem_nil a hamem
  rcases hv : (o :: os).filter
      (fun opt => decide ((opt.total_time_min : ℚ) ≤ (ft : ℚ) * 2)) with _ | ⟨c, cs⟩
  · exact absurd hv hvne
  · have hid : (cost_agent_score (o :: os)).option_id =
        (pyMinBy NormalizedOption.effective_cost_usd c cs).id := by
      rw [cost_agent_score_cases]
      simp only [← hft, hv, costPick_option_id]
    have hwinf : pyMinBy NormalizedOption.effective_cost_usd c cs ∈
        (o :: os).filter (fun opt => decide ((opt.total_time_min : ℚ) ≤ (ft : ℚ) * 2)) := by
      rw [hv]
      exact pyMinBy_mem _ _ _
    have hwcap : ((pyMinBy NormalizedOption.effective_cost_usd c cs).total_time_min : ℚ) ≤
        (ft : ℚ) * 2 := by
      have := (List.mem_filter.mp hwinf).2
      simpa using this
    refine ⟨hvne, ⟨pyMinBy NormalizedOption.effective_cost_usd c cs, hwinf, hid, hwcap⟩, ?_⟩
    rw [cost_agent_score_cases]
    simp only [← hft, hv, costPick_score]
    rw [if_neg (not_lt.mpr hwcap)]

theorem cost_agent_nonneg_times_score_one_witness :
    (cost_agent_score [exFastest, exA, exB]).score = 1 :=
  (cost_agent_nonneg_times_score_one exFastest [exA, exB] (by decide)).2.2

theorem pyOrRat_zero (r : ℚ) : pyOrRat r 0 = r := by
  unfold pyOrRat
  split_ifs with h
  · rw [h]
  · rfl

def exLong : NormalizedOption :=
  { id := "long", mode := "transit", provider := "muni",
    duration_min := 240, walk_min := some 1, cost_usd := 0 }

/-- C7 counterexample: for the option `exLong` (walk_min = 1 > 0,
total_time_min = 241) both the night-context and the day-context per-option
safety scores clamp to 0, so the night score is not strictly lower. -/
theorem safety_night_not_strictly_lower :
    ¬ (safety_option_score exLong (some 0) (some 30) <
       safety_option_score exLong (some 0) (some 0)) := by
  norm_num [safety_option_score, normalize_score, clamp01, exLong,
    NormalizedOption.total_time_min, pyOrInt, pyOrRat]

/-- C7 amended: for an option with `walk_min > 0`, a non-negative risk
penalty and a strictly positive day-context score (so the `[0,1]` clamp does
not floor the comparison), the night-walk context (`night_walk_minutes > 0`)
scores the option strictly lower than the day context
(`night_walk_minutes = 0`). -/
theorem safety_night_penalty_strict (opt : NormalizedOption) (w : ℤ)
    (hw : opt.walk_min = some w) (hwpos : 0 < w) (r : ℚ) (hr : 0 ≤ r)
    (n : ℤ) (hn : 0 < n)
    (hday : 0 < safety_option_score opt (some r) (some 0)) :
    safety_option_score opt (some r) (some n) <
      safety_option_score opt (some r) (some 0) := by
  have hwq : (1 : ℚ) ≤ (w : ℚ) := by exact_mod_cast hwpos
  have hnight : safety_option_score opt (some r) (some n) =
      clamp01 ((1 - normalize_score (opt.total_time_min : ℚ) 0 120) -
        min (2/5) ((w : ℚ) * (1/10)) - r * (1/2)) := by
    simp only [safety_option_score, hw, pyOrRat_zero]
    rw [if_pos ⟨ne_of_gt hwpos, hwpos⟩, if_pos ⟨ne_of_gt hn, hn⟩]
  have hdayeq : safety_option_score opt (some r) (some 0) =
      clamp01 ((1 - normalize_score (opt.total_time_min : ℚ) 0 120) -
        min (1/5) ((w : ℚ) * (1/20)) - r * (1/2)) := by
    simp only [safety_option_score, hw, pyOrRat_zero]
    rw [if_pos ⟨ne_of_gt hwpos, hwpos⟩, if_neg (by simp)]
  have hts_le : 1 - normalize_score (opt.total_time_min : ℚ) 0 120 ≤ 1 := by
    unfold normalize_score
    split_ifs with h
    · norm_num at h
    · have : (0 : ℚ) ≤ max 0 (min 1 (((opt.total_time_min : ℚ) - 0) / (120 - 0))) :=
        le_max_left _ _
      linarith
  set ts := 1 - normalize_score (opt.total_time_min : ℚ) 0 120 with hts
  set wpD := min (1/5 : ℚ) ((w : ℚ) * (1/20)) with hwpD
  set wpN := min (2/5 : ℚ) ((w : ℚ) * (1/10)) with hwpN
  have hwpD_pos : 0 < wpD := lt_min (by norm_num) (by linarith)
  have hwp_lt : wpD < wpN := by
    rcases le_or_lt (w : ℚ) 4 with h4 | h4
    · rw [hwpD, hwpN, min_eq_right (by linarith), min_eq_right (by linarith)]
      linarith
    · rw [hwpD, hwpN, min_eq_left (by linarith), min_eq_left (by linarith)]
      norm_num
  set preD := ts - wpD - r * (1/2) with hpreD
  set preN := ts - wpN - r * (1/2) with hpreN
  have hpre_lt : preN < preD := by
    rw [hpreD, hpreN]
    linarith
  have hpreD_lt_one : preD < 1 := by
    rw [hpreD]
    linarith
  have hday' : 0 < preD := by
    by_contra hc
    push_neg at hc
    rw [hdayeq] at hday
    have hz : clamp01 preD = 0 := by
      unfold clamp01
      rw [max_eq_left]
      exact le_trans (min_le_right 1 preD) hc
    rw [hz] at hday
    exact absurd hday (lt_irrefl 0)
  have hdayval : safety_option_score opt (some r) (some 0) = preD := by
    rw [hdayeq]
    unfold clamp01
    rw [min_eq_right (le_of_lt hpreD_lt_one), max_eq_right (le_of_lt hday')]
  have hnightval : safety_option_score opt (some r) (some n) = max 0 preN := by
    rw [hnight]
    unfold clamp01
    rw [min_eq_right (le_of_lt (lt_trans hpre_lt hpreD_lt_one))]
  rw [hdayval, hnightval]
  exact max_lt hday' hpre_lt

def exShort : NormalizedOption :=
  { id := "short", mode := "transit", provider := "muni",
    duration_min := 10, walk_min := some 1, cost_usd := 0 }

theorem safety_night_penalty_strict_witness :
    safety_option_score exShort (some 0) (some 30) <
      safety_option_score exShort (some 0) (some 0) :=
  safety_night_penalty_strict exShort 1 rfl (by norm_num) 0 le_rfl 30 (by norm_num)
    (by norm_num [safety_option_score, normalize_score, clamp01, exShort,
      NormalizedOption.total_time_min, pyOrInt, pyOrRat])

/-- Sum of consecutive pairwise distances over the segment points, the loop of
`_calculate_walk_duration_minutes` (`src/mcp_server/providers/safety_adapter.py`).
The haversine great-circle distance is abstracted as the parameter `dist`
(lat1 lng1 lat2 lng2 ↦ meters): its transcendental arithmetic lies outside
the rational model, and every claim below is quantified over it. -/
def segment_distance_sum (dist : ℚ → ℚ → ℚ → ℚ → ℚ) : List (ℚ × ℚ) → ℚ
  | p :: q :: rest => dist p.1 p.2 q.1 q.2 + segment_distance_sum dist (q :: rest)
  | _ => 0

/-- `_calculate_walk_duration_minutes`: total distance over the fixed walking
speed of 83.4 m/min; fewer than 2 points give 0. -/
def _calculate_walk_duration_minutes (dist : ℚ → ℚ → ℚ → ℚ → ℚ)
    (walk_segments : List (ℚ × ℚ)) : ℚ :=
  if walk_segments.length < 2 then 0
  else segment_distance_sum dist walk_segments / (417/5)

/-- A Python `datetime` on its exact timeline, as minutes (with fractional
seconds) since an epoch midnight.  `datetime.fromisoformat` is abstracted to
its result: the functions below consume `Option PyDateTime`, `none` standing
for an absent or unparsable `time_of_day` string. -/
structure PyDateTime where
  absMin : ℚ
  deriving DecidableEq, Repr

/-- The `hour` field (0–23) of the datetime. -/
def PyDateTime.hour (dt : PyDateTime) : ℤ :=
  ⌊dt.absMin / 60⌋ % 24

/-- The `minute` field (0–59) of the datetime. -/
def PyDateTime.minute (dt : PyDateTime) : ℤ :=
  ⌊dt.absMin⌋ % 60

/-- `dt + timedelta(minutes=m)`. -/
def PyDateTime.addMinutes (dt : PyDateTime) (m : ℚ) : PyDateTime :=
  ⟨dt.absMin + m⟩

/-- Python `int(...)` on a float: truncation toward zero. -/
def pyInt (q : ℚ) : ℤ :=
  if 0 ≤ q then ⌊q⌋ else ⌈q⌉

/-- `_is_night_time`: hour in [22:00, 06:00). -/
def _is_night_time (dt : PyDateTime) : Bool :=
  22 ≤ dt.hour || dt.hour < 6

/-- `_is_evening_or_early_morning`: hour in [20:00, 08:00) but not night. -/
def _is_evening_or_early_morning (dt : PyDateTime) : Bool :=
  (20 ≤ dt.hour || dt.hour < 8) && !(_is_night_time dt)

/-- `get_safety_risk_score` (`src/mcp_server/providers/safety_adapter.py`):
the time-of-day increment, plus the walk-length increment when at least two
segment points are given, clamped by `min(0.3, max(0.0, risk))`. -/
def get_safety_risk_score (dist : ℚ → ℚ → ℚ → ℚ → ℚ)
    (walk_segments : List (ℚ × ℚ)) (parsed : Option PyDateTime) : ℚ :=
  min (3/10) (max 0
    ((match parsed with
      | some dt =>
        if _is_night_time dt then (15/100 : ℚ)
        else if _is_evening_or_early_morning dt then 8/100
        else 0
      | none => 0) +
     (if 2 ≤ walk_segments.length then
        (if _calculate_walk_duration_minutes dist walk_segments > 10 then (1/10 : ℚ)
         else if _calculate_walk_duration_minutes dist walk_segments > 5 then 1/20
         else if _calculate_walk_duration_minutes dist walk_segments > 2 then 1/50
         else 0)
      else 0)))

/-- The risk formula as the spec words it: a time-of-day factor over the hour
windows [22:00, 06:00) and [20:00, 22:00) ∪ [06:00, 08:00), plus a tiered
walk-length factor when at least 2 segment points are given, the sum clamped
to [0.0, 0.3]. -/
def risk_score_spec (dist : ℚ → ℚ → ℚ → ℚ → ℚ)
    (walk_segments : List (ℚ × ℚ)) (parsed : Option PyDateTime) : ℚ :=
  max 0 (min (3/10)
    ((match parsed with
      | some dt =>
        if 22 ≤ dt.hour ∨ dt.hour < 6 then (15/100 : ℚ)
        else if (20 ≤ dt.hour ∧ dt.hour < 22) ∨ (6 ≤ dt.hour ∧ dt.hour < 8) then 8/100
        else 0
      | none => 0) +
     (if 2 ≤ walk_segments.length then
        (if 10 < _calculate_walk_duration_minutes dist walk_segments then (1/10 : ℚ)
         else if 5 < _calculate_walk_duration_minutes dist walk_segments ∧
                 _calculate_walk_duration_minutes dist walk_segments ≤ 10 then 1/20
         else if 2 < _calculate_walk_duration_minutes dist walk_segments ∧
                 _calculate_walk_duration_minutes dist walk_segments ≤ 5 then 1/50
         else 0)
      else 0)))

theorem min_max_clamp_comm (x : ℚ) : min (3/10) (max 0 x) = max 0 (min (3/10) x) := by
  rcases le_total x 0 with h | h
  · rw [max_eq_left h, min_eq_right (le_trans h (by norm_num)), max_eq_left h,
      min_eq_right (by norm_num)]
  · rw [max_eq_right h, max_eq_right (le_min (by norm_num) h)]

theorem time_factor_eq (dt : PyDateTime) :
    (if _is_night_time dt then (15/100 : ℚ)
     else if _is_evening_or_early_morning dt then 8/100
     else 0) =
    (if 22 ≤ dt.hour ∨ dt.hour < 6 then (15/100 : ℚ)
     else if (20 ≤ dt.hour ∧ dt.hour < 22) ∨ (6 ≤ dt.hour ∧ dt.hour < 8) then 8/100
     else 0) := by
  have hnight : (_is_night_time dt = true) ↔ (22 ≤ dt.hour ∨ dt.hour < 6) := by
    simp [_is_night_time]
  have heven : (_is_evening_or_early_morning dt = true) ↔
      ((20 ≤ dt.hour ∨ dt.hour < 8) ∧ ¬(22 ≤ dt.hour ∨ dt.hour < 6)) := by
    simp only [_is_evening_or_early_morning, _is_night_time, Bool.and_eq_true,
      Bool.or_eq_true, Bool.not_eq_true', Bool.or_eq_false_iff,
      decide_eq_true_eq, decide_eq_false_iff_not, not_or]
  by_cases hn : 22 ≤ dt.hour ∨ dt.hour < 6
  · rw [if_pos (hnight.mpr hn), if_pos hn]
  · rw [if_neg (fun hc => hn (hnight.mp hc)), if_neg hn]
    by_cases he : (20 ≤ dt.hour ∧ dt.hour < 22) ∨ (6 ≤ dt.hour ∧ dt.hour < 8)
    · have h1 : 20 ≤ dt.hour ∨ dt.hour < 8 :=
        he.elim (fun x => Or.inl x.1) (fun x => Or.inr x.2)
      rw [if_pos (heven.mpr ⟨h1, hn⟩), if_pos he]
    · have hnot : ¬(_is_evening_or_early_morning dt = true) := by
        intro hc
        rcases heven.mp hc with ⟨h1, hn2⟩
        push_neg at hn2
        rcases h1 with h1 | h1
        · exact he (Or.inl ⟨h1, hn2.1⟩)
        · exact he (Or.inr ⟨hn2.2, h1⟩)
      rw [if_neg hnot, if_neg he]

theorem walk_tiers_eq (d : ℚ) :
    (if d > 10 then (1/10 : ℚ) else if d > 5 then 1/20 else if d > 2 then 1/50 else 0) =
    (if 10 < d then (1/10 : ℚ) else if 5 < d ∧ d ≤ 10 then 1/20
     else if 2 < d ∧ d ≤ 5 then 1/50 else 0) := by
  by_cases h10 : 10 < d
  · rw [if_pos h10, if_pos h10]
  · rw [if_neg h10, if_neg h10]
    by_cases h5 : 5 < d
    · rw [if_pos h5, if_pos (show 5 < d ∧ d ≤ 10 from ⟨h5, le_of_not_lt h10⟩)]
    · rw [if_neg h5, if_neg (show ¬(5 < d ∧ d ≤ 10) from fun hc => h5 hc.1)]
      by_cases h2 : 2 < d
      · rw [if_pos h2, if_pos (show 2 < d ∧ d ≤ 5 from ⟨h2, le_of_not_lt h5⟩)]
      · rw [if_neg h2, if_neg (show ¬(2 < d ∧ d ≤ 5) from fun hc => h2 hc.1)]

/-- C8: for every distance function, segment list and parse outcome, the
code's risk score equals the spec's formula — clamp to [0.0, 0.3] of the
time-of-day factor plus the tiered walk-length factor over the walk duration
at 83.4 m/min; an absent or unparsable timestamp (`parsed = none`)
contributes no time factor, and the function is total (never raises). -/
theorem risk_score_matches_spec (dist : ℚ → ℚ → ℚ → ℚ → ℚ)
    (walk_segments : List (ℚ × ℚ)) (parsed : Option PyDateTime) :
    get_safety_risk_score dist walk_segments parsed =
      risk_score_spec dist walk_segments parsed := by
  unfold get_safety_risk_score risk_score_spec
  rw [min_max_clamp_comm]
  have h1 : (match parsed with
      | some dt =>
        if _is_night_time dt then (15/100 : ℚ)
        else if _is_evening_or_early_morning dt then 8/100
        else 0
      | none => 0) =
      (match parsed with
      | some dt =>
        if 22 ≤ dt.hour ∨ dt.hour < 6 then (15/100 : ℚ)
        else if (20 ≤ dt.hour ∧ dt.hour < 22) ∨ (6 ≤ dt.hour ∧ dt.hour < 8) then 8/100
        else 0
      | none => 0) := by
    rcases parsed with _ | dt
    · rfl
    · exact time_factor_eq dt
  rw [h1, walk_tiers_eq (_calculate_walk_duration_minutes dist walk_segments)]

/-- `get_night_walk_minutes` (`src/mcp_server/providers/safety_adapter.py`).
`parsed = none` covers both an absent/falsy `time_of_day` and a failed
parse.  `datetime(end_time.year, end_time.month, end_time.day, 22, 0, 0)`
is 22:00 of the end time's calendar day, i.e. minute 1320 of that day. -/
def get_night_walk_minutes (dist : ℚ → ℚ → ℚ → ℚ → ℚ)
    (walk_segments : List (ℚ × ℚ)) (parsed : Option PyDateTime) : ℤ :=
  match parsed with
  | none => 0
  | some dt =>
    if walk_segments.length < 2 then 0
    else
      let total_walk_min := _calculate_walk_duration_minutes dist walk_segments
      if _is_night_time dt then
        let end_time := dt.addMinutes total_walk_min
        if 22 ≤ end_time.hour ∨ end_time.hour < 6 then pyInt total_walk_min
        else
          let night_minutes :=
            if 22 ≤ dt.hour then ((24 - dt.hour) + 6) * 60 - dt.minute
            else (6 - dt.hour) * 60 - dt.minute
          min (pyInt total_walk_min) (max 0 night_minutes)
      else
        let end_time := dt.addMinutes total_walk_min
        if dt.hour < 22 then
          if 22 ≤ end_time.hour then
            max 0 (pyInt (end_time.absMin - (1440 * ⌊end_time.absMin / 1440⌋ + 1320)))
          else 0
        else 0

/-- Modelled from the spec: the daytime-start clause of `night_walk_minutes`
("if the start time is daytime, compute how many minutes occur after crossing
22:00 that same day if the walk duration pushes it there; otherwise 0") —
22:00 of the start's own day, whole minutes truncated like the code's
`int(...)`. -/
def daytime_night_walk_minutes_spec (dist : ℚ → ℚ → ℚ → ℚ → ℚ)
    (walk_segments : List (ℚ × ℚ)) (dt : PyDateTime) : ℤ :=
  let total_walk_min := _calculate_walk_duration_minutes dist walk_segments
  let end_abs := dt.absMin + total_walk_min
  let night_start : ℚ := 1440 * ⌊dt.absMin / 1440⌋ + 1320
  if night_start < end_abs then pyInt (end_abs - night_start) else 0

/-- C9: failing input for the daytime-start clause.  A 400-minute walk
(two points 33 360 m apart) starting 21:00 (absolute minute 1260, hour 21,
daytime) ends at 03:40 the next day (absolute minute 1660, hour 3): it
crosses 22:00 and continues past midnight, spending 340 minutes after the
22:00 crossing, but the code returns 0 because the end hour 3 fails the
`end_time.hour >= 22` test. -/
theorem night_walk_minutes_midnight_slip :
    get_night_walk_minutes (fun _ _ _ _ => 33360) [(0, 0), (1, 1)] (some ⟨1260⟩) = 0 ∧
    daytime_night_walk_minutes_spec (fun _ _ _ _ => 33360) [(0, 0), (1, 1)] ⟨1260⟩ = 340 ∧
    ¬ (22 ≤ PyDateTime.hour ⟨1260⟩ ∨ PyDateTime.hour ⟨1260⟩ < 6) := by
  have hdur : _calculate_walk_duration_minutes (fun _ _ _ _ => 33360) [(0, 0), (1, 1)] =
      400 := by
    norm_num [_calculate_walk_duration_minutes, segment_distance_sum]
  have hhour : PyDateTime.hour ⟨1260⟩ = 21 := by
    norm_num [PyDateTime.hour]
  have hend : PyDateTime.hour ⟨1660⟩ = 3 := by
    have : ⌊(1660 : ℚ) / 60⌋ = 27 := by
      norm_num [Int.floor_eq_iff]
    norm_num [PyDateTime.hour, this]
  refine ⟨?_, ?_, ?_⟩
  · rw [get_night_walk_minutes]
    simp only [hdur]
    rw [if_neg (by norm_num)]
    have hnight : _is_night_time ⟨1260⟩ = false := by
      simp [_is_night_time, hhour]
    rw [hnight]
    simp only [Bool.false_eq_true, if_false, PyDateTime.addMinutes]
    norm_num [hend, hhour]
  · rw [daytime_night_walk_minutes_spec]
    simp only [hdur]
    have hfl : ⌊(1260 : ℚ) / 1440⌋ = 0 := by
      norm_num [Int.floor_eq_iff]
    rw [hfl]
    norm_num [pyInt, Int.floor_intCast]
  · rw [hhour]
    norm_num
